import Mathlib

/-!
Verification of the `commit_instances` instance-commitment helper from
`src/lib.rs` of the halo2-playground repository.

The external proving library's abstractions (commitment scheme, verifying
key, scalar field, curve) are modelled as structures of opaque capability
functions, exactly the surface the Rust generic code can observe:

* `FieldOps` — the scalar field, exposing the additive identity used for
  padding and the multiplicative identity used by `Blind::default()`;
* `ParamsVerifier` — the commitment parameters, exposing the domain size
  `n` and the `commit_lagrange` operation;
* `VerifyingKey` — the constraint-system counts (`num_instance_columns`,
  `blinding_factors()`) and the domain's `lagrange_from_vec`;
* `CurveOps` — the projective-to-affine conversion `to_affine`.

The `usize` subtraction `params.n() as usize - (vk.cs.blinding_factors() + 1)`
is modelled with a checked subtraction: an underflow (a panic in a debug
build, a wrap in release) is represented as `none`, so `commit_instances`
returns `Option (Except Error _)` where `none` marks the arithmetic fault
and `some` the Rust function's normal return value.
-/

namespace Halo2

/-- The two variants of `halo2_proofs::plonk::Error` that `commit_instances`
can produce (the enum has further variants, none of them reachable here). -/
inductive Error where
  | InvalidInstances
  | InstanceTooLarge
  deriving DecidableEq, Repr

/-- Scalar-field capabilities visible to the generic code: `Scheme::Scalar::zero()`
used for padding and `Field::one()` used by `Blind::default()`. -/
structure FieldOps (S : Type) where
  zero : S
  one : S

/-- `halo2_proofs::poly::commitment::Blind`, a newtype around a scalar. -/
structure Blind (S : Type) where
  value : S

/-- `Blind::default()`: the halo2 library implements `Default` for `Blind`
as `Blind(F::one())`. -/
def Blind.default {S : Type} (F : FieldOps S) : Blind S :=
  { value := F.one }

/-- A polynomial in the Lagrange (point-value) basis, as produced by
`EvaluationDomain::lagrange_from_vec`: a newtype around the value vector. -/
structure LagrangePoly (S : Type) where
  values : List S

/-- The part of `EvaluationDomain` used here: `lagrange_from_vec`, an opaque
basis-reinterpretation of a flat coefficient vector. -/
structure EvaluationDomain (S : Type) where
  lagrange_from_vec : List S → LagrangePoly S

/-- The two `ConstraintSystem` quantities read by `commit_instances`:
`num_instance_columns` (a field) and `blinding_factors()` (a method, modelled
by its value). -/
structure ConstraintSystemInfo where
  num_instance_columns : Nat
  blinding_factors : Nat

/-- The slice of `VerifyingKey` that `commit_instances` reads: the constraint
system counts and the evaluation domain. -/
structure VerifyingKey (S : Type) where
  cs : ConstraintSystemInfo
  domain : EvaluationDomain S

/-- Projective-to-affine conversion `Curve::to_affine` on the commitment
scheme's curve. -/
structure CurveOps (Cp Ca : Type) where
  to_affine : Cp → Ca

/-- The slice of `Scheme::ParamsVerifier` that `commit_instances` uses: the
domain size `n()` and the `commit_lagrange` operation (Lagrange-basis vector
plus blinding factor, yielding a projective point). -/
structure ParamsVerifier (S Cp : Type) where
  n : Nat
  commit_lagrange : LagrangePoly S → Blind S → Cp

/-- Checked `usize` subtraction: `none` models the arithmetic fault (debug
panic / release wrap) of `a - b` when `b > a`. -/
def checkedSub (a b : Nat) : Option Nat :=
  if b ≤ a then some (a - b) else none

/-- Rust `Vec::resize(new_len, z)`: extend with copies of `z` when growing,
truncate when shrinking. -/
def listResize {S : Type} (l : List S) (newLen : Nat) (z : S) : List S :=
  if l.length < newLen then l ++ List.replicate (newLen - l.length) z
  else l.take newLen

variable {S Cp Ca : Type}

/-- The commitment pipeline applied to one accepted instance vector
(`lib.rs` lines 31–35): copy (`to_vec`), `resize` to `params.n()` with the
scalar zero, `lagrange_from_vec`, `commit_lagrange` with `Blind::default()`,
`to_affine`. -/
def commit_one (F : FieldOps S) (G : CurveOps Cp Ca) (params : ParamsVerifier S Cp)
    (vk : VerifyingKey S) (inst : List S) : Ca :=
  let poly := listResize inst params.n F.zero
  let poly := vk.domain.lagrange_from_vec poly
  G.to_affine (params.commit_lagrange poly (Blind.default F))

/-- The per-column closure of `commit_instances` (`lib.rs` lines 27–36):
capacity check against `params.n() - (blinding_factors() + 1)` (checked
subtraction: `none` is the underflow fault), then the commitment pipeline. -/
def commit_column (F : FieldOps S) (G : CurveOps Cp Ca) (params : ParamsVerifier S Cp)
    (vk : VerifyingKey S) (inst : List S) : Option (Except Error Ca) :=
  match checkedSub params.n (vk.cs.blinding_factors + 1) with
  | none => none
  | some cap =>
    if inst.length > cap then some (Except.error Error.InstanceTooLarge)
    else some (Except.ok (commit_one F G params vk inst))

/-- The inner `map`/`collect::<Result<Vec<_>, _>>()` over the columns of one
instance set: left-to-right, stopping at the first error (or fault). -/
def commit_set (F : FieldOps S) (G : CurveOps Cp Ca) (params : ParamsVerifier S Cp)
    (vk : VerifyingKey S) : List (List S) → Option (Except Error (List Ca))
  | [] => some (Except.ok [])
  | inst :: rest =>
    match commit_column F G params vk inst with
    | none => none
    | some (Except.error e) => some (Except.error e)
    | some (Except.ok c) =>
      match commit_set F G params vk rest with
      | none => none
      | some (Except.error e) => some (Except.error e)
      | some (Except.ok cs) => some (Except.ok (c :: cs))

/-- The outer `map`/`collect` over the instance sets. -/
def commit_sets (F : FieldOps S) (G : CurveOps Cp Ca) (params : ParamsVerifier S Cp)
    (vk : VerifyingKey S) : List (List (List S)) → Option (Except Error (List (List Ca)))
  | [] => some (Except.ok [])
  | inst :: rest =>
    match commit_set F G params vk inst with
    | none => none
    | some (Except.error e) => some (Except.error e)
    | some (Except.ok cs) =>
      match commit_sets F G params vk rest with
      | none => none
      | some (Except.error e) => some (Except.error e)
      | some (Except.ok css) => some (Except.ok (cs :: css))

/-- The initial shape-check loop (`lib.rs` lines 16–20): the first instance
set whose column count differs from `vk.cs.num_instance_columns` aborts with
`Error::InvalidInstances`. -/
def check_shapes (vk : VerifyingKey S) : List (List (List S)) → Except Error Unit
  | [] => Except.ok ()
  | inst :: rest =>
    if inst.length ≠ vk.cs.num_instance_columns then Except.error Error.InvalidInstances
    else check_shapes vk rest

/-- `commit_instances` (`lib.rs` lines 10–42): shape-check every instance
set, then commit every column vector of every set, collecting the nested
result. `none` models the `usize` underflow fault of the capacity
subtraction; `some r` is the Rust function's return value `r`. -/
def commit_instances (F : FieldOps S) (G : CurveOps Cp Ca) (params : ParamsVerifier S Cp)
    (vk : VerifyingKey S) (instances : List (List (List S))) :
    Option (Except Error (List (List Ca))) :=
  match check_shapes vk instances with
  | Except.error e => some (Except.error e)
  | Except.ok _ => commit_sets F G params vk instances

/-! ### Instrumented (traced) variant

To state "no cryptographic work is performed on the offending data" we
instrument the same control flow with a trace: the second component lists,
in evaluation order, the input vectors on which the commitment pipeline
(padding, `lagrange_from_vec`, `commit_lagrange`, `to_affine`) was actually
run. The first component coincides with `commit_instances`
(`commit_instances_tr_fst`). -/

/-- `commit_column`, also reporting which vectors reached the commitment
pipeline: exactly those that passed the capacity check. -/
def commit_column_tr (F : FieldOps S) (G : CurveOps Cp Ca) (params : ParamsVerifier S Cp)
    (vk : VerifyingKey S) (inst : List S) : Option (Except Error Ca) × List (List S) :=
  match checkedSub params.n (vk.cs.blinding_factors + 1) with
  | none => (none, [])
  | some cap =>
    if inst.length > cap then (some (Except.error Error.InstanceTooLarge), [])
    else (some (Except.ok (commit_one F G params vk inst)), [inst])

/-- Traced form of `commit_set`: traces of committed vectors accumulate
left to right and stop at the first error or fault. -/
def commit_set_tr (F : FieldOps S) (G : CurveOps Cp Ca) (params : ParamsVerifier S Cp)
    (vk : VerifyingKey S) : List (List S) → Option (Except Error (List Ca)) × List (List S)
  | [] => (some (Except.ok []), [])
  | inst :: rest =>
    match commit_column_tr F G params vk inst with
    | (none, tr) => (none, tr)
    | (some (Except.error e), tr) => (some (Except.error e), tr)
    | (some (Except.ok c), tr) =>
      match commit_set_tr F G params vk rest with
      | (none, tr2) => (none, tr ++ tr2)
      | (some (Except.error e), tr2) => (some (Except.error e), tr ++ tr2)
      | (some (Except.ok cs), tr2) => (some (Except.ok (c :: cs)), tr ++ tr2)

/-- Traced form of `commit_sets`. -/
def commit_sets_tr (F : FieldOps S) (G : CurveOps Cp Ca) (params : ParamsVerifier S Cp)
    (vk : VerifyingKey S) : List (List (List S)) → Option (Except Error (List (List Ca))) × List (List S)
  | [] => (some (Except.ok []), [])
  | inst :: rest =>
    match commit_set_tr F G params vk inst with
    | (none, tr) => (none, tr)
    | (some (Except.error e), tr) => (some (Except.error e), tr)
    | (some (Except.ok cs), tr) =>
      match commit_sets_tr F G params vk rest with
      | (none, tr2) => (none, tr ++ tr2)
      | (some (Except.error e), tr2) => (some (Except.error e), tr ++ tr2)
      | (some (Except.ok css), tr2) => (some (Except.ok (cs :: css)), tr ++ tr2)

/-- Traced form of `commit_instances`: a batch rejected by the shape check
has an empty trace, because the shape loop precedes all commitment work. -/
def commit_instances_tr (F : FieldOps S) (G : CurveOps Cp Ca) (params : ParamsVerifier S Cp)
    (vk : VerifyingKey S) (instances : List (List (List S))) :
    Option (Except Error (List (List Ca))) × List (List S) :=
  match check_shapes vk instances with
  | Except.error e => (some (Except.error e), [])
  | Except.ok _ => commit_sets_tr F G params vk instances

/-! ### Borrow-threading variant

The Rust signature takes `params`, `vk` and `instances` by shared reference
and returns a fresh `Vec`. The frame property is rendered by threading the
borrowed inputs through the call as explicit state and observing that the
call hands them back unchanged next to its result. -/

/-- The shared-borrow state of one call: the three borrowed inputs. -/
structure CallState (S Cp : Type) where
  params : ParamsVerifier S Cp
  vk : VerifyingKey S
  instances : List (List (List S))

/-- One call of `commit_instances` with its borrows threaded as state: the
function only reads `st`, so the state component is returned as received. -/
def commit_instances_call (F : FieldOps S) (G : CurveOps Cp Ca) (st : CallState S Cp) :
    Option (Except Error (List (List Ca))) × CallState S Cp :=
  (commit_instances F G st.params st.vk st.instances, st)

end Halo2

namespace Halo2

/-! ### Concrete instantiation for witnesses

A small executable environment over `Nat` scalars; the "commitment" records
the Lagrange values and the blind, so distinct polynomials commit
differently and evaluation is decidable. Domain size 8 with one blinding
factor and one instance column matches the spec's concrete scenario. -/

/-- `Nat` as scalar field carrier: zero and one. -/
def natF : FieldOps Nat :=
  { zero := 0, one := 1 }

/-- Trivial curve: projective and affine points are both `List Nat`,
`to_affine` is the identity. -/
def natG : CurveOps (List Nat) (List Nat) :=
  { to_affine := fun x => x }

/-- Test parameters: `n = 8`, commitment = blind consed onto the values. -/
def testParams : ParamsVerifier Nat (List Nat) :=
  { n := 8, commit_lagrange := fun p b => b.value :: p.values }

/-- Test verifying key: one instance column, one blinding factor, identity
basis reinterpretation. -/
def testVk : VerifyingKey Nat :=
  { cs := { num_instance_columns := 1, blinding_factors := 1 }
    domain := { lagrange_from_vec := fun v => { values := v } } }

/-- Degenerate parameters with `n = 0`, below `blinding_factors + 1`: the
capacity subtraction underflows on them. -/
def zeroParams : ParamsVerifier Nat (List Nat) :=
  { n := 0, commit_lagrange := fun p b => b.value :: p.values }

end Halo2

namespace Halo2

/-! ### Helper lemmas -/

variable {S Cp Ca : Type}

theorem checkedSub_eq_some {a b c : Nat} : checkedSub a b = some c ↔ b ≤ a ∧ c = a - b := by
  unfold checkedSub
  split
  · simp only [Option.some.injEq]
    constructor
    · intro h
      exact And.intro (by assumption) h.symm
    · intro h
      exact h.2.symm
  · simp only [reduceCtorEq, false_iff, not_and]
    intro h
    omega

theorem checkedSub_eq_none {a b : Nat} : checkedSub a b = none ↔ a < b := by
  unfold checkedSub
  split
  · simp only [reduceCtorEq, false_iff]
    omega
  · simp only [true_iff]
    omega

theorem check_shapes_ok_iff (vk : VerifyingKey S) (l : List (List (List S))) :
    check_shapes vk l = Except.ok () ↔
      ∀ inst ∈ l, inst.length = vk.cs.num_instance_columns := by
  induction l with
  | nil => simp [check_shapes]
  | cons inst rest ih =>
    unfold check_shapes
    split
    · simp only [reduceCtorEq, false_iff, not_forall]
      exact ⟨inst, List.mem_cons_self inst rest, by assumption⟩
    · rw [ih]
      constructor
      · intro h x hx
        rcases List.mem_cons.mp hx with hx | hx
        · subst hx
          omega
        · exact h x hx
      · intro h x hx
        exact h x (List.mem_cons_of_mem _ hx)

theorem check_shapes_error_of_mismatch (vk : VerifyingKey S) (l : List (List (List S)))
    (h : ∃ inst ∈ l, inst.length ≠ vk.cs.num_instance_columns) :
    check_shapes vk l = Except.error Error.InvalidInstances := by
  induction l with
  | nil => simp at h
  | cons inst rest ih =>
    unfold check_shapes
    split
    · rfl
    · apply ih
      rcases h with ⟨x, hx, hne⟩
      rcases List.mem_cons.mp hx with hx | hx
      · subst hx
        omega
      · exact ⟨x, hx, hne⟩

theorem commit_column_ok (F : FieldOps S) (G : CurveOps Cp Ca) (params : ParamsVerifier S Cp)
    (vk : VerifyingKey S) (inst : List S)
    (h : inst.length + (vk.cs.blinding_factors + 1) ≤ params.n) :
    commit_column F G params vk inst = some (Except.ok (commit_one F G params vk inst)) := by
  have h1 : checkedSub params.n (vk.cs.blinding_factors + 1) =
      some (params.n - (vk.cs.blinding_factors + 1)) :=
    checkedSub_eq_some.mpr (And.intro (by omega) rfl)
  unfold commit_column
  rw [h1]
  simp only [gt_iff_lt]
  rw [if_neg (by omega)]

theorem commit_column_err (F : FieldOps S) (G : CurveOps Cp Ca) (params : ParamsVerifier S Cp)
    (vk : VerifyingKey S) (inst : List S)
    (hbf : vk.cs.blinding_factors + 1 ≤ params.n)
    (h : params.n - (vk.cs.blinding_factors + 1) < inst.length) :
    commit_column F G params vk inst = some (Except.error Error.InstanceTooLarge) := by
  have h1 : checkedSub params.n (vk.cs.blinding_factors + 1) =
      some (params.n - (vk.cs.blinding_factors + 1)) :=
    checkedSub_eq_some.mpr (And.intro hbf rfl)
  unfold commit_column
  rw [h1]
  simp only [gt_iff_lt]
  rw [if_pos h]

theorem commit_set_ok (F : FieldOps S) (G : CurveOps Cp Ca) (params : ParamsVerifier S Cp)
    (vk : VerifyingKey S) (s : List (List S))
    (h : ∀ v ∈ s, v.length + (vk.cs.blinding_factors + 1) ≤ params.n) :
    commit_set F G params vk s = some (Except.ok (s.map (commit_one F G params vk))) := by
  induction s with
  | nil => rfl
  | cons inst rest ih =>
    unfold commit_set
    rw [commit_column_ok F G params vk inst (h inst (List.mem_cons_self inst rest))]
    rw [ih (fun v hv => h v (List.mem_cons_of_mem _ hv))]
    rfl

theorem commit_sets_ok (F : FieldOps S) (G : CurveOps Cp Ca) (params : ParamsVerifier S Cp)
    (vk : VerifyingKey S) (sets : List (List (List S)))
    (h : ∀ inst ∈ sets, ∀ v ∈ inst, v.length + (vk.cs.blinding_factors + 1) ≤ params.n) :
    commit_sets F G params vk sets =
      some (Except.ok (sets.map (fun inst => inst.map (commit_one F G params vk)))) := by
  induction sets with
  | nil => rfl
  | cons inst rest ih =>
    unfold commit_sets
    rw [commit_set_ok F G params vk inst (h inst (List.mem_cons_self inst rest))]
    rw [ih (fun x hx => h x (List.mem_cons_of_mem _ hx))]
    rfl

theorem commit_set_err (F : FieldOps S) (G : CurveOps Cp Ca) (params : ParamsVerifier S Cp)
    (vk : VerifyingKey S) (s : List (List S))
    (hbf : vk.cs.blinding_factors + 1 ≤ params.n)
    (h : ∃ v ∈ s, params.n - (vk.cs.blinding_factors + 1) < v.length) :
    commit_set F G params vk s = some (Except.error Error.InstanceTooLarge) := by
  induction s with
  | nil => simp at h
  | cons inst rest ih =>
    by_cases hinst : params.n - (vk.cs.blinding_factors + 1) < inst.length
    · unfold commit_set
      rw [commit_column_err F G params vk inst hbf hinst]
    · unfold commit_set
      rw [commit_column_ok F G params vk inst (by omega)]
      have hrest : ∃ v ∈ rest, params.n - (vk.cs.blinding_factors + 1) < v.length := by
        rcases h with ⟨v, hv, hlen⟩
        rcases List.mem_cons.mp hv with hv | hv
        · subst hv
          omega
        · exact ⟨v, hv, hlen⟩
      rw [ih hrest]

theorem commit_sets_err (F : FieldOps S) (G : CurveOps Cp Ca) (params : ParamsVerifier S Cp)
    (vk : VerifyingKey S) (sets : List (List (List S)))
    (hbf : vk.cs.blinding_factors + 1 ≤ params.n)
    (h : ∃ inst ∈ sets, ∃ v ∈ inst, params.n - (vk.cs.blinding_factors + 1) < v.length) :
    commit_sets F G params vk sets = some (Except.error Error.InstanceTooLarge) := by
  induction sets with
  | nil => simp at h
  | cons inst rest ih =>
    by_cases hinst : ∃ v ∈ inst, params.n - (vk.cs.blinding_factors + 1) < v.length
    · unfold commit_sets
      rw [commit_set_err F G params vk inst hbf hinst]
    · unfold commit_sets
      push_neg at hinst
      rw [commit_set_ok F G params vk inst (fun v hv => by have := hinst v hv; omega)]
      have hrest : ∃ x ∈ rest, ∃ v ∈ x, params.n - (vk.cs.blinding_factors + 1) < v.length := by
        rcases h with ⟨x, hx, v, hv, hlen⟩
        rcases List.mem_cons.mp hx with hx | hx
        · subst hx
          exact absurd hlen (by have := hinst v hv; omega)
        · exact ⟨x, hx, v, hv, hlen⟩
      rw [ih hrest]

theorem commit_set_none (F : FieldOps S) (G : CurveOps Cp Ca) (params : ParamsVerifier S Cp)
    (vk : VerifyingKey S) (inst : List S) (rest : List (List S))
    (hbf : params.n < vk.cs.blinding_factors + 1) :
    commit_set F G params vk (inst :: rest) = none := by
  unfold commit_set commit_column
  rw [checkedSub_eq_none.mpr hbf]

theorem commit_sets_none (F : FieldOps S) (G : CurveOps Cp Ca) (params : ParamsVerifier S Cp)
    (vk : VerifyingKey S) (sets : List (List (List S)))
    (hbf : params.n < vk.cs.blinding_factors + 1)
    (h : ∃ inst ∈ sets, inst ≠ []) :
    commit_sets F G params vk sets = none := by
  induction sets with
  | nil => simp at h
  | cons inst rest ih =>
    match inst with
    | [] =>
      unfold commit_sets
      have hrest : ∃ x ∈ rest, x ≠ [] := by
        rcases h with ⟨x, hx, hne⟩
        rcases List.mem_cons.mp hx with hx | hx
        · subst hx
          simp at hne
        · exact ⟨x, hx, hne⟩
      rw [show commit_set F G params vk [] = some (Except.ok []) from rfl, ih hrest]
    | v :: vs =>
      unfold commit_sets
      rw [commit_set_none F G params vk v vs hbf]

theorem commit_set_isSome (F : FieldOps S) (G : CurveOps Cp Ca) (params : ParamsVerifier S Cp)
    (vk : VerifyingKey S) (s : List (List S))
    (hbf : vk.cs.blinding_factors + 1 ≤ params.n) :
    commit_set F G params vk s ≠ none := by
  induction s with
  | nil => simp [commit_set]
  | cons inst rest ih =>
    unfold commit_set
    by_cases hlen : params.n - (vk.cs.blinding_factors + 1) < inst.length
    · rw [commit_column_err F G params vk inst hbf hlen]
      simp
    · rw [commit_column_ok F G params vk inst (by omega)]
      match hr : commit_set F G params vk rest with
      | none => exact absurd hr ih
      | some (Except.error e) => simp
      | some (Except.ok cs) => simp

theorem commit_sets_isSome (F : FieldOps S) (G : CurveOps Cp Ca) (params : ParamsVerifier S Cp)
    (vk : VerifyingKey S) (sets : List (List (List S)))
    (hbf : vk.cs.blinding_factors + 1 ≤ params.n) :
    commit_sets F G params vk sets ≠ none := by
  induction sets with
  | nil => simp [commit_sets]
  | cons inst rest ih =>
    unfold commit_sets
    match hc : commit_set F G params vk inst with
    | none => exact absurd hc (commit_set_isSome F G params vk inst hbf)
    | some (Except.error e) => simp
    | some (Except.ok cs) =>
      match hr : commit_sets F G params vk rest with
      | none => exact absurd hr ih
      | some (Except.error e) => simp
      | some (Except.ok css) => simp

theorem commit_column_tr_fst (F : FieldOps S) (G : CurveOps Cp Ca) (params : ParamsVerifier S Cp)
    (vk : VerifyingKey S) (inst : List S) :
    (commit_column_tr F G params vk inst).1 = commit_column F G params vk inst := by
  unfold commit_column_tr commit_column
  match checkedSub params.n (vk.cs.blinding_factors + 1) with
  | none => rfl
  | some cap =>
    by_cases hl : inst.length > cap
    · simp [hl]
    · simp [hl]

theorem commit_set_tr_fst (F : FieldOps S) (G : CurveOps Cp Ca) (params : ParamsVerifier S Cp)
    (vk : VerifyingKey S) (s : List (List S)) :
    (commit_set_tr F G params vk s).1 = commit_set F G params vk s := by
  induction s with
  | nil => rfl
  | cons inst rest ih =>
    unfold commit_set_tr commit_set
    rw [← commit_column_tr_fst F G params vk inst, ← ih]
    match commit_column_tr F G params vk inst with
    | (none, tr) => rfl
    | (some (Except.error e), tr) => rfl
    | (some (Except.ok c), tr) =>
      match commit_set_tr F G params vk rest with
      | (none, tr2) => rfl
      | (some (Except.error e), tr2) => rfl
      | (some (Except.ok cs), tr2) => rfl

theorem commit_sets_tr_fst (F : FieldOps S) (G : CurveOps Cp Ca) (params : ParamsVerifier S Cp)
    (vk : VerifyingKey S) (sets : List (List (List S))) :
    (commit_sets_tr F G params vk sets).1 = commit_sets F G params vk sets := by
  induction sets with
  | nil => rfl
  | cons inst rest ih =>
    unfold commit_sets_tr commit_sets
    rw [← commit_set_tr_fst F G params vk inst, ← ih]
    match commit_set_tr F G params vk inst with
    | (none, tr) => rfl
    | (some (Except.error e), tr) => rfl
    | (some (Except.ok cs), tr) =>
      match commit_sets_tr F G params vk rest with
      | (none, tr2) => rfl
      | (some (Except.error e), tr2) => rfl
      | (some (Except.ok css), tr2) => rfl

theorem commit_instances_tr_fst (F : FieldOps S) (G : CurveOps Cp Ca)
    (params : ParamsVerifier S Cp) (vk : VerifyingKey S) (instances : List (List (List S))) :
    (commit_instances_tr F G params vk instances).1 =
      commit_instances F G params vk instances := by
  unfold commit_instances_tr commit_instances
  rw [← commit_sets_tr_fst F G params vk instances]
  match check_shapes vk instances with
  | Except.error e => rfl
  | Except.ok _ => rfl

theorem commit_column_tr_bound (F : FieldOps S) (G : CurveOps Cp Ca)
    (params : ParamsVerifier S Cp) (vk : VerifyingKey S) (inst : List S) :
    ∀ v ∈ (commit_column_tr F G params vk inst).2,
      v.length + (vk.cs.blinding_factors + 1) ≤ params.n := by
  unfold commit_column_tr
  match hc : checkedSub params.n (vk.cs.blinding_factors + 1) with
  | none => simp
  | some cap =>
    have h := checkedSub_eq_some.mp hc
    intro v hv
    by_cases hl : inst.length > cap
    · simp [hl] at hv
    · simp [hl] at hv
      subst hv
      omega

theorem commit_set_tr_bound (F : FieldOps S) (G : CurveOps Cp Ca)
    (params : ParamsVerifier S Cp) (vk : VerifyingKey S) (s : List (List S)) :
    ∀ v ∈ (commit_set_tr F G params vk s).2,
      v.length + (vk.cs.blinding_factors + 1) ≤ params.n := by
  induction s with
  | nil => simp [commit_set_tr]
  | cons inst rest ih =>
    have hcol := commit_column_tr_bound F G params vk inst
    unfold commit_set_tr
    match hc : commit_column_tr F G params vk inst with
    | (none, tr) =>
      intro v hv
      exact hcol v (by rw [hc]; exact hv)
    | (some (Except.error e), tr) =>
      intro v hv
      exact hcol v (by rw [hc]; exact hv)
    | (some (Except.ok c), tr) =>
      match hr : commit_set_tr F G params vk rest with
      | (none, tr2) =>
        intro v hv
        rcases List.mem_append.mp hv with hv | hv
        · exact hcol v (by rw [hc]; exact hv)
        · exact ih v (by rw [hr]; exact hv)
      | (some (Except.error e), tr2) =>
        intro v hv
        rcases List.mem_append.mp hv with hv | hv
        · exact hcol v (by rw [hc]; exact hv)
        · exact ih v (by rw [hr]; exact hv)
      | (some (Except.ok cs), tr2) =>
        intro v hv
        rcases List.mem_append.mp hv with hv | hv
        · exact hcol v (by rw [hc]; exact hv)
        · exact ih v (by rw [hr]; exact hv)

theorem commit_sets_tr_bound (F : FieldOps S) (G : CurveOps Cp Ca)
    (params : ParamsVerifier S Cp) (vk : VerifyingKey S) (sets : List (List (List S))) :
    ∀ v ∈ (commit_sets_tr F G params vk sets).2,
      v.length + (vk.cs.blinding_factors + 1) ≤ params.n := by
  induction sets with
  | nil => simp [commit_sets_tr]
  | cons inst rest ih =>
    have hset := commit_set_tr_bound F G params vk inst
    unfold commit_sets_tr
    match hc : commit_set_tr F G params vk inst with
    | (none, tr) =>
      intro v hv
      exact hset v (by rw [hc]; exact hv)
    | (some (Except.error e), tr) =>
      intro v hv
      exact hset v (by rw [hc]; exact hv)
    | (some (Except.ok cs), tr) =>
      match hr : commit_sets_tr F G params vk rest with
      | (none, tr2) =>
        intro v hv
        rcases List.mem_append.mp hv with hv | hv
        · exact hset v (by rw [hc]; exact hv)
        · exact ih v (by rw [hr]; exact hv)
      | (some (Except.error e), tr2) =>
        intro v hv
        rcases List.mem_append.mp hv with hv | hv
        · exact hset v (by rw [hc]; exact hv)
        · exact ih v (by rw [hr]; exact hv)
      | (some (Except.ok css), tr2) =>
        intro v hv
        rcases List.mem_append.mp hv with hv | hv
        · exact hset v (by rw [hc]; exact hv)
        · exact ih v (by rw [hr]; exact hv)

theorem commit_instances_tr_bound (F : FieldOps S) (G : CurveOps Cp Ca)
    (params : ParamsVerifier S Cp) (vk : VerifyingKey S) (instances : List (List (List S))) :
    ∀ v ∈ (commit_instances_tr F G params vk instances).2,
      v.length + (vk.cs.blinding_factors + 1) ≤ params.n := by
  have h := commit_sets_tr_bound F G params vk instances
  unfold commit_instances_tr
  match check_shapes vk instances with
  | Except.error e => simp
  | Except.ok _ => exact h

theorem listResize_eq_self (l : List S) (m : Nat) (z : S) (h : l.length = m) :
    listResize l m z = l := by
  unfold listResize
  rw [if_neg (by omega), ← h, List.take_length]

end Halo2

namespace Halo2

/-! ### The claims -/

variable {S Cp Ca : Type}

/-- C1: when every instance set has exactly the declared number of instance
columns and every vector fits in the usable capacity (its length plus
`blinding_factors + 1` is at most `n`, the integer reading of
`length ≤ n − (blinding_factors + 1)`), `commit_instances` returns `Ok`
with exactly one commitment per input vector — the image of the input
nesting under the per-vector pipeline `commit_one` — preserving the
two-level ordering. -/
theorem commit_instances_complete (F : FieldOps S) (G : CurveOps Cp Ca)
    (params : ParamsVerifier S Cp) (vk : VerifyingKey S) (instances : List (List (List S)))
    (hshape : ∀ inst ∈ instances, inst.length = vk.cs.num_instance_columns)
    (hlen : ∀ inst ∈ instances, ∀ v ∈ inst,
      v.length + (vk.cs.blinding_factors + 1) ≤ params.n) :
    commit_instances F G params vk instances =
      some (Except.ok (instances.map (fun inst => inst.map (commit_one F G params vk)))) := by
  unfold commit_instances
  rw [(check_shapes_ok_iff vk instances).mpr hshape]
  exact commit_sets_ok F G params vk instances hlen

/-- Witness for C1: the spec's concrete scenario, `n = 8`, one blinding
factor, one instance column, input vector `[3, 5]`. -/
theorem commit_instances_complete_witness :
    commit_instances natF natG testParams testVk [[[3, 5]]] =
      some (Except.ok [[[1, 3, 5, 0, 0, 0, 0, 0, 0]]]) := by
  rw [commit_instances_complete natF natG testParams testVk [[[3, 5]]]
    (by decide) (by decide)]
  rfl

/-- C2: an instance set whose column count differs from the verifying key's
declared `num_instance_columns` makes `commit_instances` return
`Error::InvalidInstances`, and no vector ever reaches the commitment
pipeline (the trace of committed vectors is empty). -/
theorem commit_instances_shape_mismatch (F : FieldOps S) (G : CurveOps Cp Ca)
    (params : ParamsVerifier S Cp) (vk : VerifyingKey S) (instances : List (List (List S)))
    (h : ∃ inst ∈ instances, inst.length ≠ vk.cs.num_instance_columns) :
    commit_instances F G params vk instances = some (Except.error Error.InvalidInstances) ∧
    (commit_instances_tr F G params vk instances).2 = [] := by
  have hc := check_shapes_error_of_mismatch vk instances h
  constructor
  · unfold commit_instances
    rw [hc]
  · unfold commit_instances_tr
    rw [hc]

/-- Witness for C2: the spec's concrete scenario, one declared instance
column but an instance set with two vectors. -/
theorem commit_instances_shape_mismatch_witness :
    commit_instances natF natG testParams testVk [[[1], [2]]] =
      some (Except.error Error.InvalidInstances) ∧
    (commit_instances_tr natF natG testParams testVk [[[1], [2]]]).2 = [] :=
  commit_instances_shape_mismatch natF natG testParams testVk [[[1], [2]]]
    ⟨[[1], [2]], by decide, by decide⟩

/-- C3: when every instance set has the declared column count, the capacity
bound is well defined (`blinding_factors + 1 ≤ n`, the regime C9 carves
out), and some vector is longer than `n − (blinding_factors + 1)`,
`commit_instances` returns `Error::InstanceTooLarge`. -/
theorem commit_instances_oversized (F : FieldOps S) (G : CurveOps Cp Ca)
    (params : ParamsVerifier S Cp) (vk : VerifyingKey S) (instances : List (List (List S)))
    (hbf : vk.cs.blinding_factors + 1 ≤ params.n)
    (hshape : ∀ inst ∈ instances, inst.length = vk.cs.num_instance_columns)
    (h : ∃ inst ∈ instances, ∃ v ∈ inst,
      params.n - (vk.cs.blinding_factors + 1) < v.length) :
    commit_instances F G params vk instances = some (Except.error Error.InstanceTooLarge) := by
  unfold commit_instances
  rw [(check_shapes_ok_iff vk instances).mpr hshape]
  exact commit_sets_err F G params vk instances hbf h

/-- Witness for C3: the spec's concrete scenario, a vector of length 7
against capacity `8 − (1 + 1) = 6`. -/
theorem commit_instances_oversized_witness :
    commit_instances natF natG testParams testVk [[[1, 2, 3, 4, 5, 6, 7]]] =
      some (Except.error Error.InstanceTooLarge) :=
  commit_instances_oversized natF natG testParams testVk [[[1, 2, 3, 4, 5, 6, 7]]]
    (by decide) (by decide)
    ⟨[[1, 2, 3, 4, 5, 6, 7]], by decide, [1, 2, 3, 4, 5, 6, 7], by decide, by decide⟩

/-- C4: an accepted vector is committed by copying it, right-padding with
the scalar zero to length `n`, reinterpreting via the domain's
`lagrange_from_vec`, committing with `Blind::default()` and converting to
affine; committing a vector of length `m < n` therefore equals committing
the explicitly zero-padded length-`n` vector through the same pipeline. -/
theorem commit_instances_padding (F : FieldOps S) (G : CurveOps Cp Ca)
    (params : ParamsVerifier S Cp) (vk : VerifyingKey S) (v : List S)
    (h : v.length + (vk.cs.blinding_factors + 1) ≤ params.n) :
    commit_column F G params vk v = some (Except.ok (commit_one F G params vk v)) ∧
    commit_one F G params vk v =
      G.to_affine (params.commit_lagrange
        (vk.domain.lagrange_from_vec (v ++ List.replicate (params.n - v.length) F.zero))
        (Blind.default F)) ∧
    commit_one F G params vk v =
      commit_one F G params vk (v ++ List.replicate (params.n - v.length) F.zero) := by
  have hres : listResize v params.n F.zero = v ++ List.replicate (params.n - v.length) F.zero := by
    unfold listResize
    rw [if_pos (by omega)]
  have hpadlen : (v ++ List.replicate (params.n - v.length) F.zero).length = params.n := by
    simp only [List.length_append, List.length_replicate]
    omega
  refine ⟨commit_column_ok F G params vk v h, ?_, ?_⟩
  · simp only [commit_one, hres]
  · simp only [commit_one, hres, listResize_eq_self _ _ _ hpadlen]

/-- Witness for C4: the vector `[3, 5]` with `n = 8`. -/
theorem commit_instances_padding_witness :
    commit_column natF natG testParams testVk [3, 5] =
      some (Except.ok (commit_one natF natG testParams testVk [3, 5])) ∧
    commit_one natF natG testParams testVk [3, 5] =
      natG.to_affine (testParams.commit_lagrange
        (testVk.domain.lagrange_from_vec ([3, 5] ++ List.replicate 6 natF.zero))
        (Blind.default natF)) ∧
    commit_one natF natG testParams testVk [3, 5] =
      commit_one natF natG testParams testVk ([3, 5] ++ List.replicate 6 natF.zero) :=
  commit_instances_padding natF natG testParams testVk [3, 5] (by decide)

/-- C5: `commit_instances` is deterministic — two calls on equal parameters,
verifying keys and instance batches return equal results; the embedding is
a pure function and the source draws no randomness. -/
theorem commit_instances_deterministic (F : FieldOps S) (G : CurveOps Cp Ca)
    (p1 p2 : ParamsVerifier S Cp) (vk1 vk2 : VerifyingKey S)
    (i1 i2 : List (List (List S)))
    (hp : p1 = p2) (hvk : vk1 = vk2) (hi : i1 = i2) :
    commit_instances F G p1 vk1 i1 = commit_instances F G p2 vk2 i2 := by
  subst hp
  subst hvk
  subst hi
  rfl

/-- Witness for C5: two identical concrete calls agree. -/
theorem commit_instances_deterministic_witness :
    commit_instances natF natG testParams testVk [[[3, 5]]] =
      commit_instances natF natG testParams testVk [[[3, 5]]] :=
  commit_instances_deterministic natF natG testParams testParams testVk testVk
    [[[3, 5]]] [[[3, 5]]] rfl rfl rfl

/-- C6: shape validation of every set completes before any size check or
commitment: any mismatched set (at any position) yields
`Error::InvalidInstances` with no assumption on vector sizes — even if an
earlier set holds an oversized vector — and once all shapes match, an
oversized vector in the well-defined-capacity regime yields
`Error::InstanceTooLarge`; the `Except` result carries no partial output. -/
theorem commit_instances_error_order (F : FieldOps S) (G : CurveOps Cp Ca)
    (params : ParamsVerifier S Cp) (vk : VerifyingKey S) (instances : List (List (List S))) :
    ((∃ inst ∈ instances, inst.length ≠ vk.cs.num_instance_columns) →
      commit_instances F G params vk instances = some (Except.error Error.InvalidInstances)) ∧
    (vk.cs.blinding_factors + 1 ≤ params.n →
      (∀ inst ∈ instances, inst.length = vk.cs.num_instance_columns) →
      (∃ inst ∈ instances, ∃ v ∈ inst,
        params.n - (vk.cs.blinding_factors + 1) < v.length) →
      commit_instances F G params vk instances = some (Except.error Error.InstanceTooLarge)) := by
  constructor
  · intro h
    unfold commit_instances
    rw [check_shapes_error_of_mismatch vk instances h]
  · intro hbf hshape h
    unfold commit_instances
    rw [(check_shapes_ok_iff vk instances).mpr hshape]
    exact commit_sets_err F G params vk instances hbf h

/-- Witness for C6: the first set holds an oversized vector, the second set
is shape-mismatched; the shape error wins. -/
theorem commit_instances_error_order_witness :
    commit_instances natF natG testParams testVk [[[1, 2, 3, 4, 5, 6, 7]], [[1], [2]]] =
      some (Except.error Error.InvalidInstances) :=
  (commit_instances_error_order natF natG testParams testVk
      [[[1, 2, 3, 4, 5, 6, 7]], [[1], [2]]]).1
    ⟨[[1], [2]], by decide, by decide⟩

/-- C7: `commit_instances` has no side effects — threading the borrowed
`params`, `vk` and `instances` through the call as explicit state returns
them unchanged next to the freshly computed result. -/
theorem commit_instances_frame (F : FieldOps S) (G : CurveOps Cp Ca) (st : CallState S Cp) :
    (commit_instances_call F G st).2 = st ∧
    (commit_instances_call F G st).1 = commit_instances F G st.params st.vk st.instances :=
  ⟨rfl, rfl⟩

/-- C8: both errors precede cryptographic work on the offending data: the
trace of vectors that reach the commitment pipeline is empty for a
shape-mismatched batch, and every traced vector passed its capacity check,
so an oversized vector is never padded, converted or committed; the traced
run returns exactly what `commit_instances` returns. -/
theorem commit_instances_error_before_work (F : FieldOps S) (G : CurveOps Cp Ca)
    (params : ParamsVerifier S Cp) (vk : VerifyingKey S) (instances : List (List (List S))) :
    (commit_instances_tr F G params vk instances).1 =
      commit_instances F G params vk instances ∧
    ((∃ inst ∈ instances, inst.length ≠ vk.cs.num_instance_columns) →
      (commit_instances_tr F G params vk instances).2 = []) ∧
    (∀ v ∈ (commit_instances_tr F G params vk instances).2,
      v.length + (vk.cs.blinding_factors + 1) ≤ params.n) := by
  refine ⟨commit_instances_tr_fst F G params vk instances, ?_,
    commit_instances_tr_bound F G params vk instances⟩
  intro h
  unfold commit_instances_tr
  rw [check_shapes_error_of_mismatch vk instances h]

/-- Witness for C8: a mismatched batch commits nothing. -/
theorem commit_instances_error_before_work_witness :
    (commit_instances_tr natF natG testParams testVk [[[1], [2]]]).2 = [] :=
  (commit_instances_error_before_work natF natG testParams testVk [[[1], [2]]]).2.1
    ⟨[[1], [2]], by decide, by decide⟩

/-- C9, counterexample: the claim asserts the capacity subtraction faults
whenever `n < blinding_factors + 1` and some instance vector is present;
but with `n = 0`, one blinding factor and the batch `[[[0]], []]` — which
does contain the vector `[0]` — the mismatched second set makes the call
return `Error::InvalidInstances` before any subtraction is evaluated. -/
theorem commit_instances_underflow_cex :
    zeroParams.n < testVk.cs.blinding_factors + 1 ∧
    (∃ inst ∈ [[([0] : List Nat)], []], inst ≠ []) ∧
    commit_instances natF natG zeroParams testVk [[[0]], []] =
      some (Except.error Error.InvalidInstances) :=
  ⟨by decide, ⟨[[0]], by decide, by decide⟩, rfl⟩

/-- C9, amended: the capacity bound uses unguarded `usize` subtraction, so
`commit_instances` is total (never hits the arithmetic fault, `none`) when
`blinding_factors + 1 ≤ n`; and when `n < blinding_factors + 1`, every
batch that passes the column-count check and contains at least one
instance vector evaluates the underflowing subtraction and faults instead
of returning an error. -/
theorem commit_instances_underflow (F : FieldOps S) (G : CurveOps Cp Ca)
    (params : ParamsVerifier S Cp) (vk : VerifyingKey S) (instances : List (List (List S))) :
    (vk.cs.blinding_factors + 1 ≤ params.n →
      commit_instances F G params vk instances ≠ none) ∧
    (params.n < vk.cs.blinding_factors + 1 →
      (∀ inst ∈ instances, inst.length = vk.cs.num_instance_columns) →
      (∃ inst ∈ instances, inst ≠ []) →
      commit_instances F G params vk instances = none) := by
  constructor
  · intro hbf
    unfold commit_instances
    match check_shapes vk instances with
    | Except.error e => simp
    | Except.ok _ => exact commit_sets_isSome F G params vk instances hbf
  · intro hbf hshape h
    unfold commit_instances
    rw [(check_shapes_ok_iff vk instances).mpr hshape]
    exact commit_sets_none F G params vk instances hbf h

/-- Witness for C9: with `n = 0` the shape-valid singleton batch faults;
with `n = 8` the same batch shape is total. -/
theorem commit_instances_underflow_witness :
    commit_instances natF natG zeroParams testVk [[[0]]] = none ∧
    commit_instances natF natG testParams testVk [[[3, 5]]] ≠ none :=
  ⟨(commit_instances_underflow natF natG zeroParams testVk [[[0]]]).2
      (by decide) (by decide) ⟨[[0]], by decide, by decide⟩,
   (commit_instances_underflow natF natG testParams testVk [[[3, 5]]]).1 (by decide)⟩

/-- C10, counterexample: the claim asserts a set of all-empty column
vectors is accepted whenever its column count matches; but with `n = 0`
and one blinding factor the matching singleton batch `[[[]]]` evaluates
the underflowing capacity subtraction and faults (`none`) instead. -/
theorem commit_instances_empty_cex :
    (∀ inst ∈ [[([] : List Nat)]], inst.length = testVk.cs.num_instance_columns) ∧
    commit_instances natF natG zeroParams testVk [[[]]] = none :=
  ⟨by decide, rfl⟩

/-- C10, amended: an empty batch yields `Ok []` for any parameters and key,
with no vector reaching the commitment pipeline; and — provided the
capacity bound does not underflow (`blinding_factors + 1 ≤ n`) — a batch of
matching sets of all-empty vectors is accepted, each empty vector
committing to the all-zero length-`n` Lagrange polynomial. -/
theorem commit_instances_empty (F : FieldOps S) (G : CurveOps Cp Ca)
    (params : ParamsVerifier S Cp) (vk : VerifyingKey S) (instances : List (List (List S))) :
    (commit_instances F G params vk ([] : List (List (List S))) = some (Except.ok []) ∧
     (commit_instances_tr F G params vk ([] : List (List (List S)))).2 = []) ∧
    (vk.cs.blinding_factors + 1 ≤ params.n →
      (∀ inst ∈ instances, inst.length = vk.cs.num_instance_columns) →
      (∀ inst ∈ instances, ∀ v ∈ inst, v = ([] : List S)) →
      commit_instances F G params vk instances =
        some (Except.ok (instances.map (fun inst =>
          inst.map (fun _ => commit_one F G params vk ([] : List S)))))) ∧
    commit_one F G params vk ([] : List S) =
      G.to_affine (params.commit_lagrange
        (vk.domain.lagrange_from_vec (List.replicate params.n F.zero))
        (Blind.default F)) := by
  have hres : listResize ([] : List S) params.n F.zero = List.replicate params.n F.zero := by
    unfold listResize
    by_cases hn : 0 < params.n
    · simp only [List.length_nil, hn, if_true, List.nil_append, Nat.sub_zero]
    · have h0 : params.n = 0 := by omega
      simp [h0]
  refine ⟨⟨rfl, rfl⟩, ?_, by simp only [commit_one, hres]⟩
  intro hbf hshape hempty
  rw [commit_instances_complete F G params vk instances hshape
    (fun inst hinst v hv => by rw [hempty inst hinst v hv]; simpa using hbf)]
  congr 1
  congr 1
  apply List.map_congr_left
  intro inst hinst
  apply List.map_congr_left
  intro v hv
  rw [hempty inst hinst v hv]

/-- Witness for C10: the empty batch and a singleton batch of one empty
column vector, over the `n = 8` test environment. -/
theorem commit_instances_empty_witness :
    commit_instances natF natG testParams testVk [] = some (Except.ok []) ∧
    commit_instances natF natG testParams testVk [[[]]] =
      some (Except.ok [[commit_one natF natG testParams testVk []]]) :=
  ⟨(commit_instances_empty natF natG testParams testVk []).1.1,
   (commit_instances_empty natF natG testParams testVk [[[]]]).2.1
     (by decide) (by decide) (by decide)⟩

end Halo2
